import Mathlib

/-!
Verification of the momentum-capture recording pipeline (Rust, Tauri app).

This file gives a shallow embedding of the capture, synchronization and
muxing core found under `src-tauri/src/services/`, and proves or refutes
the behavioural claims made by the specification.

Conventions used throughout:
* Rust `u64` / `usize` counters are modelled as `Nat`; `u64::saturating_sub`
  is `Nat` subtraction (which saturates at zero).
* Rust `i64` / `i32` / `i128` values are modelled as `Int`, with explicit
  range hypotheses and explicit saturation where the source saturates.
* Rust `f32` / `f64` arithmetic is modelled exactly over `ℚ`: the source
  only multiplies, divides by powers of two, compares and rounds, so the
  rational model captures the intended real-number semantics.
* Stateful code is modelled by explicit state-passing functions; capture
  callbacks are modelled as functions from inputs and flags to the list of
  observable effects (bytes written, frames published) they produce.
-/

namespace Momentum

/-! ## Time conversion (`services/time.rs`) -/

def i128Min : Int := -(2 ^ 127)

def i128Max : Int := 2 ^ 127 - 1

def u64MaxI : Int := 2 ^ 64 - 1

/-- Rust `i128::saturating_mul`. -/
def saturatingMulI128 (a b : Int) : Int :=
  max i128Min (min (a * b) i128Max)

/-- Rust `i128::checked_div`: `none` on division by zero or on the single
overflowing case `i128::MIN / -1`; otherwise division truncating toward
zero (`Int.tdiv`). -/
def checkedDivI128 (a b : Int) : Option Int :=
  if b = 0 then none
  else if a = i128Min ∧ b = -1 then none
  else some (a.tdiv b)

/-- `cm_time_to_ns` from `services/time.rs`.  `value` is the `i64` numerator
of the `CMTime`, `timescale` its `i32` denominator; returns `u64`
nanoseconds (modelled as `Nat`). -/
def cm_time_to_ns (value timescale : Int) : Nat :=
  if timescale = 0 then 0
  else
    -- the source re-checks the denominator after widening; dead after the
    -- first check, kept for fidelity
    if timescale = 0 then 0
    else
      let nanos := (checkedDivI128 (saturatingMulI128 value 1000000000) timescale).getD 0
      if nanos < 0 then 0
      else (min nanos u64MaxI).toNat

/-! ## Audio sample conversion (`screencapturekit_recorder/frame_handler.rs`) -/

/-- Truncation toward zero of a rational, as performed by Rust float-to-int
`as` casts before saturation. -/
def ratTrunc (q : ℚ) : ℤ :=
  if 0 ≤ q then ⌊q⌋ else ⌈q⌉

/-- Rust `as i16` cast of a float: truncate toward zero, saturating at the
`i16` range. -/
def rustCastI16 (q : ℚ) : ℤ :=
  max (-32768) (min 32767 (ratTrunc q))

/-- `float_to_s16` from `frame_handler.rs`:
`let clamped = sample.max(-1.0).min(1.0); (clamped * 32767.0) as i16`. -/
def float_to_s16 (sample : ℚ) : ℤ :=
  rustCastI16 (min (max sample (-1)) 1 * 32767)

/-! ## Mux alignment filters (`screencapturekit_recorder/mux.rs`) -/

/-- The audio filter emitted by `push_alignment_filter`, by structure rather
than by its textual `ffmpeg` rendering: a pass-through, a leading delay in
milliseconds, or a head trim in seconds. -/
inductive AlignFilter where
  | anull : AlignFilter
  | adelay : Nat → AlignFilter
  | atrim : ℚ → AlignFilter
deriving DecidableEq

/-- Rust `f64::round`: round half away from zero. -/
def rustRound (q : ℚ) : ℤ :=
  if 0 ≤ q then ⌊q + 1 / 2⌋ else ⌈q - 1 / 2⌉

/-- `push_alignment_filter` from `mux.rs`.  The source pushes a formatted
filter string; we model the structured content of that string. -/
def push_alignment_filter (offset_seconds : Option ℚ) : AlignFilter :=
  let offset := offset_seconds.getD 0
  if |offset| < 1 / 1000 then AlignFilter.anull
  else if 0 < offset then
    AlignFilter.adelay (max (rustRound (offset * 1000)) 1).toNat
  else
    AlignFilter.atrim (max (-offset) 0)

/-- For `q > 2`, the ceiling of `q / 2` is strictly below the ceiling of
`q` (both positive); this is the decreasing measure of the two `while`
loops in `build_atempo_chain`. -/
theorem ceilHalf_toNat_lt {q : ℚ} (h : 2 < q) : (⌈q / 2⌉).toNat < (⌈q⌉).toNat := by
  have h1 : (⌈q / 2⌉ : ℚ) < q / 2 + 1 := Int.ceil_lt_add_one _
  have h2 : q / 2 + 1 ≤ q := by linarith
  have h3 : (⌈q / 2⌉ : ℚ) < (⌈q⌉ : ℚ) :=
    lt_of_lt_of_le (lt_of_lt_of_le h1 h2) (Int.le_ceil q)
  have h4 : ⌈q / 2⌉ < ⌈q⌉ := by exact_mod_cast h3
  have h5 : 0 < ⌈q⌉ := Int.ceil_pos.mpr (by linarith)
  omega

/-- First loop of `build_atempo_chain`:
`while ratio > 2.0 { factors.push(2.0); ratio /= 2.0; }`.
Returns the pushed factors and the final ratio. -/
def halveLoop (r : ℚ) : List ℚ × ℚ :=
  if h : 2 < r then
    let p := halveLoop (r / 2)
    (2 :: p.1, p.2)
  else ([], r)
termination_by (⌈r⌉).toNat
decreasing_by exact ceilHalf_toNat_lt h

/-- Second loop of `build_atempo_chain`:
`while ratio < 0.5 { factors.push(0.5); ratio /= 0.5; }`.
The source only reaches this loop with a positive ratio (negative and zero
ratios return early); the positivity conjunct in the guard makes the
recursion well-founded on all inputs and agrees with the source on every
reachable one. -/
def doubleLoop (r : ℚ) : List ℚ × ℚ :=
  if h : 0 < r ∧ r < 1 / 2 then
    let p := doubleLoop (r / (1 / 2))
    ((1 / 2) :: p.1, p.2)
  else ([], r)
termination_by (⌈1 / r⌉).toNat
decreasing_by
  have hr : r ≠ 0 := ne_of_gt h.1
  have hq : 1 / (r / (1 / 2)) = (1 / r) / 2 := by
    field_simp
  rw [hq]
  apply ceilHalf_toNat_lt
  rw [lt_div_iff₀ h.1]
  linarith [h.2]

/-- `build_atempo_chain` from `mux.rs`, modelled as the list of tempo
factors pushed (the source joins them into an `atempo=...` filter string;
the textual rendering is omitted).  `ℚ` has no non-finite values, so the
`!ratio.is_finite()` early return of the source is vacuous here. -/
def build_atempo_chain (ratio : ℚ) : List ℚ :=
  if ratio ≤ 0 then []
  else
    let p1 := halveLoop ratio
    let p2 := doubleLoop p1.2
    let factors := p1.1 ++ p2.1
    if 1 / 10000 < |p2.2 - 1| then factors ++ [p2.2] else factors

/-! ## Camera frames and the synced frame buffer (`services/camera.rs`) -/

structure CameraFramePayload where
  id : Nat
  width : Nat
  height : Nat
  format : String
  data_base64 : String
  pts_ns : Nat
deriving DecidableEq

def CAMERA_BUFFER_CAPACITY : Nat := 300

def CAMERA_TARGET_LAG_NS : Nat := 5000000

def MAX_CAM_DELAY_NS : Nat := 120000000

structure SyncedFrameBuffer where
  frames : List CameraFramePayload
  last_frame : Option CameraFramePayload
  min_queued : Nat
  max_queued : Nat
deriving DecidableEq

/-- `SyncedFrameBuffer::new`; `min_queued` starts at `usize::MAX`. -/
def SyncedFrameBuffer.new : SyncedFrameBuffer :=
  ⟨[], none, 2 ^ 64 - 1, 0⟩

def SyncedFrameBuffer.update_stats (b : SyncedFrameBuffer) : SyncedFrameBuffer :=
  let len := b.frames.length
  let b1 := if len < b.min_queued then { b with min_queued := len } else b
  if b1.max_queued < len then { b1 with max_queued := len } else b1

/-- `SyncedFrameBuffer::push`: append, refresh the `last_frame` cache, then
drop from the front while over capacity (`List.drop` of the excess). -/
def SyncedFrameBuffer.push (b : SyncedFrameBuffer) (frame : CameraFramePayload) : SyncedFrameBuffer :=
  let fs := b.frames ++ [frame]
  let fs' := fs.drop (fs.length - CAMERA_BUFFER_CAPACITY)
  SyncedFrameBuffer.update_stats { b with frames := fs', last_frame := some frame }

/-- The candidate-index scan of `pop_for_screen_pts`: walk the buffer from
the front, remember the last index whose `pts_ns` is at most the target,
and break at the first frame beyond the target. -/
def candidateAux (screen_pts_ns : Nat) : List CameraFramePayload → Nat → Option Nat → Option Nat
  | [], _, acc => acc
  | f :: rest, idx, acc =>
    if f.pts_ns ≤ screen_pts_ns then candidateAux screen_pts_ns rest (idx + 1) (some idx)
    else acc

/-- `SyncedFrameBuffer::pop_for_screen_pts`: pop the candidate frame and
every frame buffered before it; `none` (buffer untouched) when no frame is
at or before the target. -/
def SyncedFrameBuffer.pop_for_screen_pts (b : SyncedFrameBuffer) (screen_pts_ns : Nat) :
    Option CameraFramePayload × SyncedFrameBuffer :=
  match candidateAux screen_pts_ns b.frames 0 none with
  | some idx =>
    let frame := (b.frames.drop idx).head?
    let b1 := SyncedFrameBuffer.update_stats { b with frames := b.frames.drop (idx + 1) }
    (frame, b1)
  | none => (none, b)

/-- `SyncedFrameBuffer::clear`. -/
def SyncedFrameBuffer.clear (_b : SyncedFrameBuffer) : SyncedFrameBuffer :=
  ⟨[], none, 2 ^ 64 - 1, 0⟩

/-- `SyncedFrameBuffer::last` returns the `last_frame` cache (not the back
of the queue). -/
def SyncedFrameBuffer.last (b : SyncedFrameBuffer) : Option CameraFramePayload :=
  b.last_frame

/-! ## Camera sync engine (`CameraSyncHandle` in `services/camera.rs`)

The handle's atomics and mutex-protected cells are modelled as one record.
The two `ghost_` fields are verification instrumentation only (they count
frames silently discarded by `pop_for_screen_pts` and frames dropped by
the capacity bound); no source counter tracks these quantities. -/

structure CameraSync where
  frame_buffer : SyncedFrameBuffer
  sync_enabled : Bool
  frame_in_count : Nat
  frame_out_count : Nat
  last_emit_delta_ns : Nat
  last_screen_pts_ns : Nat
  screen_tick_count : Nat
  last_emitted_frame : Option CameraFramePayload
  target_offset_ns : Nat
  dropped_frames : Nat
  repeated_frames : Nat
  ghost_pop_discarded : Nat
  ghost_overflow_dropped : Nat
deriving DecidableEq

/-- `CameraSyncHandle::new`; the adaptive offset starts at 30 ms. -/
def CameraSync.new : CameraSync :=
  { frame_buffer := SyncedFrameBuffer.new
    sync_enabled := false
    frame_in_count := 0
    frame_out_count := 0
    last_emit_delta_ns := 0
    last_screen_pts_ns := 0
    screen_tick_count := 0
    last_emitted_frame := none
    target_offset_ns := 30000000
    dropped_frames := 0
    repeated_frames := 0
    ghost_pop_discarded := 0
    ghost_overflow_dropped := 0 }

/-- `CameraSyncHandle::set_sync_enabled`: swap the flag; the buffer clear
and counter reset happen only on the enabled-to-disabled transition
(`if !enabled && previous` in the source).  The ghost counters are reset
together with the counters they shadow. -/
def CameraSync.set_sync_enabled (s : CameraSync) (enabled : Bool) : CameraSync :=
  let previous := s.sync_enabled
  let s1 := { s with sync_enabled := enabled }
  if !enabled && previous then
    { s1 with frame_buffer := s1.frame_buffer.clear
              last_emitted_frame := none
              frame_in_count := 0
              frame_out_count := 0
              screen_tick_count := 0
              dropped_frames := 0
              repeated_frames := 0
              target_offset_ns := 30000000
              ghost_pop_discarded := 0
              ghost_overflow_dropped := 0 }
  else s1

/-- `CameraSyncHandle::push_frame`.  Returns the new state and the frames
emitted to the UI (push emits directly only while sync is disabled). -/
def CameraSync.push_frame (s : CameraSync) (frame : CameraFramePayload) :
    CameraSync × List CameraFramePayload :=
  let before := s.frame_buffer.frames.length
  let buf := s.frame_buffer.push frame
  let overflow := before + 1 - buf.frames.length
  let s1 := { s with frame_buffer := buf
                     frame_in_count := s.frame_in_count + 1
                     ghost_overflow_dropped := s.ghost_overflow_dropped + overflow }
  if !s1.sync_enabled then
    ({ s1 with last_emitted_frame := some frame }, [frame])
  else (s1, [])

/-- `CameraSyncHandle::emit_for_screen_pts`.  Returns the new state and the
frames emitted to the UI. -/
def CameraSync.emit_for_screen_pts (s : CameraSync) (screen_pts_ns : Nat) :
    CameraSync × List CameraFramePayload :=
  let s1 := { s with last_screen_pts_ns := screen_pts_ns
                     screen_tick_count := s.screen_tick_count + 1 }
  if !s1.sync_enabled then (s1, [])
  else
    let adjusted := screen_pts_ns - s1.target_offset_ns
    let lenBefore := s1.frame_buffer.frames.length
    let pr := s1.frame_buffer.pop_for_screen_pts adjusted
    let buf := pr.2
    let leading_delay_ns :=
      match buf.last with
      | some f => screen_pts_ns - f.pts_ns
      | none => 0
    match pr.1 with
    | some frame =>
      let discarded := lenBefore - buf.frames.length - 1
      let delta := screen_pts_ns - frame.pts_ns
      let s2 := { s1 with frame_buffer := buf
                          last_emit_delta_ns := delta
                          frame_out_count := s1.frame_out_count + 1
                          last_emitted_frame := some frame
                          ghost_pop_discarded := s1.ghost_pop_discarded + discarded }
      let offset0 := s2.target_offset_ns
      let offset1 :=
        if CAMERA_TARGET_LAG_NS < delta then
          min (offset0 + max ((delta - CAMERA_TARGET_LAG_NS) / 8) 1000) MAX_CAM_DELAY_NS
        else
          offset0 - max ((CAMERA_TARGET_LAG_NS - delta) / 8) 1000
      let offset2 :=
        if MAX_CAM_DELAY_NS / 2 < leading_delay_ns then
          min (offset1 + leading_delay_ns / 16) MAX_CAM_DELAY_NS
        else offset1
      ({ s2 with target_offset_ns := offset2 }, [frame])
    | none =>
      match s1.last_emitted_frame with
      | some lf =>
        ({ s1 with frame_buffer := buf, repeated_frames := s1.repeated_frames + 1 }, [lf])
      | none =>
        ({ s1 with frame_buffer := buf, dropped_frames := s1.dropped_frames + 1 }, [])

/-- An interleaving of the two camera-sync entry points driven by the
camera reader thread (`push`) and the screen-capture callback (`emit`). -/
inductive CamOp where
  | push : CameraFramePayload → CamOp
  | emit : Nat → CamOp
deriving DecidableEq

def CameraSync.step (s : CameraSync) (op : CamOp) : CameraSync :=
  match op with
  | CamOp.push f => (s.push_frame f).1
  | CamOp.emit p => (s.emit_for_screen_pts p).1

def CameraSync.run (s : CameraSync) (ops : List CamOp) : CameraSync :=
  ops.foldl CameraSync.step s

/-! ## Recording clock (`RecordingClock` in `services/recording.rs`)

`std::time::Instant` values are modelled as monotone `Nat` timestamps; each
operation takes the current time `now` explicitly; `start.elapsed()`
becomes `now - start`. -/

structure RecordingClock where
  start_instant : Option Nat
  accumulated : Nat
  running : Bool
deriving DecidableEq

def RecordingClock.init : RecordingClock :=
  ⟨none, 0, false⟩

def RecordingClock.startAt (_c : RecordingClock) (now : Nat) : RecordingClock :=
  ⟨some now, 0, true⟩

def RecordingClock.pauseAt (c : RecordingClock) (now : Nat) : RecordingClock :=
  if c.running then
    match c.start_instant with
    | some s => ⟨none, c.accumulated + (now - s), false⟩
    | none => ⟨none, c.accumulated, false⟩
  else c

def RecordingClock.resumeAt (c : RecordingClock) (now : Nat) : RecordingClock :=
  if !c.running then { c with start_instant := some now, running := true } else c

def RecordingClock.stopClock (_c : RecordingClock) : RecordingClock :=
  ⟨none, 0, false⟩

def RecordingClock.elapsedAt (c : RecordingClock) (now : Nat) : Nat :=
  if c.running then
    match c.start_instant with
    | some s => c.accumulated + (now - s)
    | none => c.accumulated
  else c.accumulated

inductive ClockOp where
  | start : ClockOp
  | pause : ClockOp
  | resume : ClockOp
deriving DecidableEq

def RecordingClock.applyOp (c : RecordingClock) (e : Nat × ClockOp) : RecordingClock :=
  match e.2 with
  | ClockOp.start => c.startAt e.1
  | ClockOp.pause => c.pauseAt e.1
  | ClockOp.resume => c.resumeAt e.1

def RecordingClock.runTrace (c : RecordingClock) (es : List (Nat × ClockOp)) : RecordingClock :=
  es.foldl RecordingClock.applyOp c

/-- Reference clock: the total real time during which the clock was running
since the last start, tracked directly from the event trace. -/
structure ClockSpec where
  running : Bool
  total : Nat
  lastT : Nat
deriving DecidableEq

def ClockSpec.advance (sp : ClockSpec) (t : Nat) : ClockSpec :=
  { sp with total := sp.total + (if sp.running then t - sp.lastT else 0), lastT := t }

def ClockSpec.applyOp (sp : ClockSpec) (e : Nat × ClockOp) : ClockSpec :=
  let sp1 := sp.advance e.1
  match e.2 with
  | ClockOp.start => { sp1 with running := true, total := 0 }
  | ClockOp.pause => { sp1 with running := false }
  | ClockOp.resume => { sp1 with running := true }

def ClockSpec.runTrace (sp : ClockSpec) (es : List (Nat × ClockOp)) : ClockSpec :=
  es.foldl ClockSpec.applyOp sp

/-- The reference elapsed time at time `now`. -/
def ClockSpec.elapsedAt (sp : ClockSpec) (now : Nat) : Nat :=
  (sp.advance now).total

/-- Event times are nondecreasing and bounded below by the given time. -/
def chronoFrom (t : Nat) : List (Nat × ClockOp) → Bool
  | [] => true
  | e :: rest => decide (t ≤ e.1) && chronoFrom e.1 rest

/-! ## Recording session state machine (`Recorder` in `services/recording.rs`)

The fallible collaborators of `Recorder::start` — `FfmpegLocator::resolve`
and `ScreenCaptureKitRecorder::start` — are abstracted as an environment of
injected results, so the control flow of `start` can be followed exactly.
The `elapsed_task`/`elapsed_cancel` handles (an async ticker) are omitted:
no claim mentions them.  The booleans `sck_stream_running`,
`sck_ffmpeg_alive` and `sck_mic_alive` stand for the OS capture stream and
the two encoder subprocesses owned by the active session. -/

structure RecorderState where
  is_recording : Bool
  is_paused : Bool
  output_file : Option String
  include_microphone : Bool
  include_camera : Bool
deriving DecidableEq

def RecorderState.init : RecorderState :=
  { is_recording := false
    is_paused := false
    output_file := none
    include_microphone := false
    include_camera := false }

structure RecordingOptions where
  include_microphone : Bool
  include_camera : Bool
  screen_target : Option String
deriving DecidableEq

structure StartEnv where
  resolve_result : Except String String
  sck_start_result : Except String Unit

structure Recorder where
  state : RecorderState
  clock : RecordingClock
  camera_sync : CameraSync
  sck_active : Bool
  sck_recording_paused : Bool
  sck_stream_running : Bool
  sck_ffmpeg_alive : Bool
  sck_mic_alive : Bool
deriving DecidableEq

def Recorder.init : Recorder :=
  { state := RecorderState.init
    clock := RecordingClock.init
    camera_sync := CameraSync.new
    sck_active := false
    sck_recording_paused := false
    sck_stream_running := false
    sck_ffmpeg_alive := false
    sck_mic_alive := false }

/-- `Recorder::start`.  Mirrors the source control flow: the
already-recording guard, then the state is optimistically set to
recording, then `ffmpeg_locator.resolve()?` (whose failure returns with
NO rollback), then `sck_recorder.start(...)` (whose failure rolls
`is_recording` and `output_file` back). -/
def Recorder.start (r : Recorder) (env : StartEnv) (options : RecordingOptions)
    (output_file : String) (now : Nat) : Recorder × Except String Unit :=
  if r.state.is_recording then (r, Except.error "Recording already in progress")
  else
    let st := { r.state with is_recording := true
                             is_paused := false
                             output_file := some output_file
                             include_microphone := options.include_microphone
                             include_camera := options.include_camera }
    let r1 := { r with state := st }
    match env.resolve_result with
    | Except.error e => (r1, Except.error e)
    | Except.ok _ =>
      match env.sck_start_result with
      | Except.ok _ =>
        let r2 :=
          if options.include_camera then
            { r1 with camera_sync := r1.camera_sync.set_sync_enabled true }
          else r1
        let r3 := { r2 with clock := r2.clock.startAt now
                            sck_active := true
                            sck_stream_running := true
                            sck_ffmpeg_alive := true
                            sck_mic_alive := options.include_microphone }
        (r3, Except.ok ())
      | Except.error e =>
        let st2 := { r1.state with is_recording := false, output_file := none }
        ({ r1 with state := st2 }, Except.error e)

/-- `Recorder::pause`: flips `is_paused`, sets the shared
`recording_paused` atomic and pauses the clock; nothing else. -/
def Recorder.pause (r : Recorder) (now : Nat) : Recorder × Except String Unit :=
  if !r.state.is_recording then (r, Except.error "No recording in progress")
  else if r.state.is_paused then (r, Except.error "Recording already paused")
  else
    ({ r with state := { r.state with is_paused := true }
              sck_recording_paused := true
              clock := r.clock.pauseAt now }, Except.ok ())

/-- `Recorder::resume`: clears `is_paused` and the shared atomic and
resumes the clock; nothing else. -/
def Recorder.resume (r : Recorder) (now : Nat) : Recorder × Except String Unit :=
  if !r.state.is_recording then (r, Except.error "No recording in progress")
  else if !r.state.is_paused then (r, Except.error "Recording is not paused")
  else
    ({ r with state := { r.state with is_paused := false }
              sck_recording_paused := false
              clock := r.clock.resumeAt now }, Except.ok ())

/-! ## Capture callbacks (`frame_handler.rs` and the mic reader in
`start.rs`), as effect-producing functions

`did_output_sample_buffer` and one iteration of the mic reader loop are
modelled as pure functions from their inputs and the shared flags to the
list of externally observable byte-writing / frame-publishing effects. -/

inductive CaptureEffect where
  | publishScreenPts : Nat → CaptureEffect
  | writeVideoBytes : List Nat → CaptureEffect
  | writeSystemAudioBytes : List Nat → CaptureEffect
deriving DecidableEq

structure AudioPlaneQ where
  channels : Nat
  samples : List ℚ
deriving DecidableEq

/-- `i16::to_le_bytes` on a value already in the `i16` range. -/
def s16ToLeBytes (s : ℤ) : List Nat :=
  let u := ((s + 65536) % 65536).toNat
  [u % 256, u / 256]

/-- `convert_interleaved_buffers` from `frame_handler.rs`. -/
def convert_interleaved_buffers (planes : List AudioPlaneQ) : List Nat :=
  (planes.map fun plane =>
    (plane.samples.map fun smp => s16ToLeBytes (float_to_s16 smp)).flatten).flatten

/-- `convert_planar_buffers` from `frame_handler.rs`: interleave the planes
frame by frame up to the shortest plane. -/
def convert_planar_buffers (planes : List AudioPlaneQ) : List Nat :=
  let frames_per_channel := ((planes.map fun p => p.samples.length).min?).getD 0
  ((List.range frames_per_channel).map fun i =>
    (planes.map fun p => s16ToLeBytes (float_to_s16 (p.samples.getD i 0))).flatten).flatten

/-- Screen branch of `FrameHandler::did_output_sample_buffer`: always
publishes the converted PTS to the camera sync engine, then returns early
when `recording_paused`, otherwise writes the raw BGRA bytes to the video
encoder pipe when the writer and the pixel buffer are present. -/
def screenCallbackEffects (recording_paused writerPresent : Bool)
    (imageBuffer : Option (List Nat)) (pts_ns : Nat) : List CaptureEffect :=
  CaptureEffect.publishScreenPts pts_ns ::
    (if recording_paused then []
     else if writerPresent then
       match imageBuffer with
       | some pixels => [CaptureEffect.writeVideoBytes pixels]
       | none => []
     else [])

/-- Audio branch of `FrameHandler::did_output_sample_buffer`: the metadata
capture writes no bytes; the paused check comes before any write; muting
zeroes the converted bytes. -/
def audioCallbackEffects (recording_paused system_audio_muted writerPresent : Bool)
    (audio_buffers : Option (List AudioPlaneQ)) : List CaptureEffect :=
  if recording_paused then []
  else if writerPresent then
    match audio_buffers with
    | some planes =>
      if planes.isEmpty then []
      else
        let planar_layout := decide (1 < planes.length) && planes.all fun p => p.channels == 1
        let s16_data :=
          if planar_layout then convert_planar_buffers planes
          else convert_interleaved_buffers planes
        if s16_data.isEmpty then []
        else
          let out := if system_audio_muted then s16_data.map fun _ => 0 else s16_data
          [CaptureEffect.writeSystemAudioBytes out]
    | none => []
  else []

/-- One iteration of the mic reader thread in `start.rs` on a chunk of
`len` bytes read from the mic encoder's stdout: record first-arrival (a
timestamp, not a byte write), then `continue` under pause, zero-fill under
mute, and return the bytes written to the mic raw file. -/
def micReaderStep (recording_paused mic_muted : Bool) (chunk : List Nat) : List Nat :=
  if recording_paused then []
  else if mic_muted then chunk.map fun _ => 0
  else chunk

/-- A camera-sync state obtained by one preview-mode push into a fresh
handle: sync still disabled, one frame buffered, `frame_in_count = 1`. -/
def pushedOnce : CameraSync :=
  (CameraSync.new.push_frame ⟨0, 640, 480, "jpeg", "", 100⟩).1

/-- Environment in which `FfmpegLocator::resolve` fails (no encoder binary
found) and everything else would succeed. -/
def envResolveFail : StartEnv :=
  ⟨Except.error "FFmpeg not found. Install via Homebrew or set FFMPEG_PATH.", Except.ok ()⟩

/-- Environment in which every startup step succeeds. -/
def envGood : StartEnv :=
  ⟨Except.ok "/opt/homebrew/bin/ffmpeg", Except.ok ()⟩

/-- Environment in which the encoder resolves but the capture-source start
(`sck_recorder.start`, covering device resolution, subprocess spawn and
`start_capture`) fails. -/
def envSckFail : StartEnv :=
  ⟨Except.ok "/opt/homebrew/bin/ffmpeg", Except.error "Failed to start capture"⟩

def optsPlain : RecordingOptions :=
  ⟨false, false, none⟩

/-- Shorthand for a camera frame with the metadata the camera reader
thread attaches (640x480 jpeg) and a given id and PTS. -/
def camFrame (i pts : Nat) : CameraFramePayload :=
  ⟨i, 640, 480, "jpeg", "", pts⟩

/-- A camera-sync state with two buffered frames (pts 5 and 12), sync
enabled and a small adaptive offset, used to exercise the pop path. -/
def twoFrameState : CameraSync :=
  { CameraSync.new with
    frame_buffer :=
      { SyncedFrameBuffer.new with
        frames := [camFrame 0 5, camFrame 1 12]
        last_frame := some (camFrame 1 12) }
    sync_enabled := true
    target_offset_ns := 6 }

/-- The counter balance invariant of the camera sync engine:
frames pushed = frames still buffered + frames emitted from the buffer
+ frames silently discarded by pops + frames dropped by the capacity
bound.  The last two are the ghost counters. -/
def CamInv (s : CameraSync) : Prop :=
  s.frame_in_count =
    s.frame_buffer.frames.length + s.frame_out_count +
      s.ghost_pop_discarded + s.ghost_overflow_dropped

/-- A push/emit interleaving driven from a fresh enabled handle: three
pushes, then one screen tick whose adjusted target is beyond all three
frames, so the pop discards two frames and emits one. -/
def threePushOneEmit : CameraSync :=
  (CameraSync.new.set_sync_enabled true).run
    [CamOp.push (camFrame 0 10), CamOp.push (camFrame 1 20),
     CamOp.push (camFrame 2 30), CamOp.emit 100000000]

/-- The time of the last event of a trace (the given time for an empty
trace). -/
def lastTimeOf (t0 : Nat) : List (Nat × ClockOp) → Nat
  | [] => t0
  | e :: rest => lastTimeOf e.1 rest

/-- Simulation relation between the implementation clock and the reference
clock: the running flags agree, and the accumulated time (plus the open
running interval) matches the reference total. -/
def ClockAgrees (c : RecordingClock) (sp : ClockSpec) : Prop :=
  c.running = sp.running ∧
  (c.running = true →
    ∃ s, c.start_instant = some s ∧ s ≤ sp.lastT ∧ c.accumulated + (sp.lastT - s) = sp.total) ∧
  (c.running = false → c.accumulated = sp.total)

/-! ## Theorems -/

/-! ### C10: totality and exactness of `cm_time_to_ns` -/

/-- C10: `cm_time_to_ns` is total and never panics or wraps: a zero
timescale yields 0; a negative nanosecond value yields 0; a value beyond
`u64::MAX` yields `u64::MAX`; otherwise the exact truncated integer
quotient `value * 1_000_000_000 / timescale` is returned.  Under the
`i64` / `i32` input ranges the 128-bit saturating product never actually
saturates (first conjunct of the nonzero case). -/
theorem cm_time_to_ns_total_and_exact (v t : Int)
    (hv1 : -(2 ^ 63) ≤ v) (hv2 : v ≤ 2 ^ 63 - 1)
    (_ht1 : -(2 ^ 31) ≤ t) (_ht2 : t ≤ 2 ^ 31 - 1) :
    (t = 0 → cm_time_to_ns v t = 0) ∧
    (t ≠ 0 →
      saturatingMulI128 v 1000000000 = v * 1000000000 ∧
      ((v * 1000000000).tdiv t < 0 → cm_time_to_ns v t = 0) ∧
      (u64MaxI < (v * 1000000000).tdiv t → cm_time_to_ns v t = 2 ^ 64 - 1) ∧
      (0 ≤ (v * 1000000000).tdiv t → (v * 1000000000).tdiv t ≤ u64MaxI →
        (cm_time_to_ns v t : Int) = (v * 1000000000).tdiv t)) := by
  have hlo : -(2 ^ 126) ≤ v * 1000000000 := by
    have h := mul_le_mul_of_nonneg_right hv1 (show (0:Int) ≤ 1000000000 by norm_num)
    nlinarith
  have hhi : v * 1000000000 ≤ 2 ^ 126 := by
    have h := mul_le_mul_of_nonneg_right hv2 (show (0:Int) ≤ 1000000000 by norm_num)
    nlinarith
  have hsat : saturatingMulI128 v 1000000000 = v * 1000000000 := by
    unfold saturatingMulI128 i128Min i128Max
    rw [min_eq_left (by nlinarith), max_eq_right (by nlinarith)]
  refine ⟨fun h0 => by simp [cm_time_to_ns, h0], fun ht => ?_⟩
  have hne : ¬(saturatingMulI128 v 1000000000 = i128Min ∧ t = -1) := by
    rw [hsat]
    rintro ⟨ha, -⟩
    rw [i128Min] at ha
    nlinarith
  have hdef : cm_time_to_ns v t =
      (if (v * 1000000000).tdiv t < 0 then 0
       else (min ((v * 1000000000).tdiv t) u64MaxI).toNat) := by
    unfold cm_time_to_ns checkedDivI128
    rw [if_neg ht, if_neg ht, if_neg ht, if_neg hne, hsat]
    rfl
  refine ⟨hsat, ?_, ?_, ?_⟩
  · intro hq
    rw [hdef, if_pos hq]
  · intro hq
    rw [hdef, if_neg (by unfold u64MaxI at hq; omega),
      min_eq_right (le_of_lt hq)]
    unfold u64MaxI
    decide
  · intro hq1 hq2
    rw [hdef, if_neg (by omega), min_eq_left hq2,
      Int.toNat_of_nonneg hq1]

/-- C10 witness: a concrete in-range conversion, evaluated. -/
theorem cm_time_to_ns_total_and_exact_witness : cm_time_to_ns 3 2 = 1500000000 := by
  have h := cm_time_to_ns_total_and_exact 3 2 (by norm_num) (by norm_num)
    (by norm_num) (by norm_num)
  have h4 := (h.2 (by norm_num)).2.2.2 (by decide) (by decide)
  have h5 : ((3 : Int) * 1000000000).tdiv 2 = 1500000000 := by decide
  rw [h5] at h4
  exact_mod_cast h4

/-! ### C9: range, accuracy and clamping of `float_to_s16` -/

/-- Truncation toward zero is within one of its argument. -/
theorem ratTrunc_close (q : ℚ) : |(ratTrunc q : ℚ) - q| < 1 := by
  unfold ratTrunc
  split
  · have h1 := Int.floor_le q
    have h2 := Int.sub_one_lt_floor q
    rw [abs_lt]
    constructor <;> linarith
  · have h1 := Int.le_ceil q
    have h2 := Int.ceil_lt_add_one q
    rw [abs_lt]
    constructor <;> linarith

theorem ratTrunc_le {q : ℚ} {n : ℤ} (h : q ≤ (n : ℚ)) : ratTrunc q ≤ n := by
  unfold ratTrunc
  split
  · exact le_trans (Int.floor_le_floor h) (le_of_eq (Int.floor_intCast n))
  · exact le_trans (Int.ceil_le_ceil h) (le_of_eq (Int.ceil_intCast n))

theorem le_ratTrunc {q : ℚ} {n : ℤ} (h : (n : ℚ) ≤ q) : n ≤ ratTrunc q := by
  unfold ratTrunc
  split
  · exact le_trans (le_of_eq (Int.floor_intCast n).symm) (Int.floor_le_floor h)
  · exact le_trans (le_of_eq (Int.ceil_intCast n).symm) (Int.ceil_le_ceil h)

/-- The clamped product inside `float_to_s16` stays in the `i16` range, so
the final `as i16` saturation is the identity there. -/
theorem float_to_s16_eq_ratTrunc (f : ℚ) :
    float_to_s16 f = ratTrunc (min (max f (-1)) 1 * 32767) ∧
    -32767 ≤ ratTrunc (min (max f (-1)) 1 * 32767) ∧
    ratTrunc (min (max f (-1)) 1 * 32767) ≤ 32767 := by
  have hc1 : (-1 : ℚ) ≤ min (max f (-1)) 1 := le_min (le_max_right f (-1)) (by norm_num)
  have hc2 : min (max f (-1)) 1 ≤ 1 := min_le_right _ _
  have hp1 : ((-32767 : ℤ) : ℚ) ≤ min (max f (-1)) 1 * 32767 := by
    push_cast
    nlinarith
  have hp2 : min (max f (-1)) 1 * 32767 ≤ ((32767 : ℤ) : ℚ) := by
    push_cast
    nlinarith
  have ht1 := le_ratTrunc hp1
  have ht2 := ratTrunc_le hp2
  refine ⟨?_, ht1, ht2⟩
  unfold float_to_s16 rustCastI16
  rw [min_eq_right ht2, max_eq_right (by omega)]

/-- C9: `float_to_s16` always lands in `[-32767, 32767]`; on `[-1, 1]` the
result divided by 32767 is within `1/32767` of the input; inputs below
`-1` clamp to `-32767` and inputs above `1` clamp to `32767`.  (The `f32`
arithmetic of the source is modelled exactly over `ℚ`.) -/
theorem float_to_s16_props (f : ℚ) :
    (-32767 ≤ float_to_s16 f ∧ float_to_s16 f ≤ 32767) ∧
    (-1 ≤ f → f ≤ 1 → |(float_to_s16 f : ℚ) / 32767 - f| ≤ 1 / 32767) ∧
    (f < -1 → float_to_s16 f = -32767) ∧
    (1 < f → float_to_s16 f = 32767) := by
  obtain ⟨heq, hb1, hb2⟩ := float_to_s16_eq_ratTrunc f
  refine ⟨⟨heq ▸ hb1, heq ▸ hb2⟩, ?_, ?_, ?_⟩
  · intro hf1 hf2
    have hcf : min (max f (-1)) 1 = f := by
      rw [max_eq_left hf1, min_eq_left hf2]
    rw [heq, hcf]
    have hstep : (ratTrunc (f * 32767) : ℚ) / 32767 - f =
        ((ratTrunc (f * 32767) : ℚ) - f * 32767) / 32767 := by ring
    rw [hstep, abs_div, abs_of_pos (show (0:ℚ) < 32767 by norm_num)]
    gcongr
    exact le_of_lt (ratTrunc_close (f * 32767))
  · intro hf
    have hcf : min (max f (-1)) 1 = -1 := by
      rw [max_eq_right (le_of_lt hf), min_eq_left (by norm_num)]
    rw [heq, hcf]
    have hv : (-1 : ℚ) * 32767 = ((-32767 : ℤ) : ℚ) := by norm_num
    rw [hv]
    unfold ratTrunc
    rw [if_neg (by push_cast; norm_num), Int.ceil_intCast]
  · intro hf
    have hcf : min (max f (-1)) 1 = 1 := by
      rw [min_eq_right (le_max_iff.mpr (Or.inl (le_of_lt hf)))]
    rw [heq, hcf]
    have hv : (1 : ℚ) * 32767 = ((32767 : ℤ) : ℚ) := by norm_num
    rw [hv]
    unfold ratTrunc
    rw [if_pos (by push_cast; norm_num), Int.floor_intCast]

/-- C9 witness: the midpoint sample `1/2` converts to `16383` and
round-trips within `1/32767`. -/
theorem float_to_s16_props_witness :
    float_to_s16 (1 / 2) = 16383 ∧
    |(float_to_s16 (1 / 2) : ℚ) / 32767 - 1 / 2| ≤ 1 / 32767 := by
  constructor
  · rw [(float_to_s16_eq_ratTrunc (1 / 2)).1]
    unfold ratTrunc
    rw [max_eq_left (by norm_num), min_eq_left (by norm_num),
      if_pos (by norm_num)]
    norm_num
  · exact (float_to_s16_props (1 / 2)).2.1 (by norm_num) (by norm_num)

/-! ### C6: mux alignment filters -/

/-- C6 counterexample: the offset 0.0005 s is positive, and the claimed
delay would be `round(0.5 ms) = 1 ms`, yet `push_alignment_filter`
produces the pass-through `anull` filter, not `adelay 1`: every offset of
magnitude below 1 ms falls into the pass-through branch. -/
theorem push_alignment_filter_small_offset_cx :
    (0 : ℚ) < 1 / 2000 ∧ rustRound ((1 / 2000) * 1000) = 1 ∧
    push_alignment_filter (some (1 / 2000)) = AlignFilter.anull ∧
    push_alignment_filter (some (1 / 2000)) ≠ AlignFilter.adelay 1 := by
  have h2 : push_alignment_filter (some (1 / 2000)) = AlignFilter.anull := by
    unfold push_alignment_filter
    rw [if_pos]
    show |(1 : ℚ) / 2000| < 1 / 1000
    rw [abs_of_nonneg (by norm_num)]
    norm_num
  refine ⟨by norm_num, ?_, h2, by rw [h2]; decide⟩
  unfold rustRound
  rw [if_pos (by norm_num)]
  norm_num

/-- C6 amended: the claimed adelay/atrim construction holds for every
offset of magnitude at least 0.001 s (where the `max 1` clamp of the
source is provably inert); offsets of magnitude below 0.001 s instead
produce a pass-through `anull` filter. -/
theorem push_alignment_filter_amended (a : ℚ) (h : 1 / 1000 ≤ a) :
    push_alignment_filter (some a) = AlignFilter.adelay (rustRound (a * 1000)).toNat ∧
    push_alignment_filter (some (-a)) = AlignFilter.atrim a ∧
    (∀ b : ℚ, |b| < 1 / 1000 → push_alignment_filter (some b) = AlignFilter.anull) := by
  have ha0 : (0 : ℚ) < a := lt_of_lt_of_le (by norm_num) h
  have habs : ¬|a| < 1 / 1000 := by
    rw [abs_of_pos ha0]
    exact not_lt.mpr h
  refine ⟨?_, ?_, ?_⟩
  · simp only [push_alignment_filter, Option.getD_some]
    rw [if_neg habs, if_pos ha0]
    have hround : 1 ≤ rustRound (a * 1000) := by
      unfold rustRound
      rw [if_pos (by nlinarith)]
      rw [Int.le_floor]
      push_cast
      nlinarith
    rw [max_eq_left hround]
  · simp only [push_alignment_filter, Option.getD_some]
    rw [if_neg (by rw [abs_neg]; exact habs), if_neg (by simp; linarith),
      neg_neg, max_eq_left (le_of_lt ha0)]
  · intro b hb
    simp only [push_alignment_filter, Option.getD_some]
    rw [if_pos hb]

/-- C6 amended witness: a 250 ms offset delays by exactly 250 ms, and its
negation trims 0.25 s. -/
theorem push_alignment_filter_amended_witness :
    push_alignment_filter (some (1 / 4)) = AlignFilter.adelay 250 ∧
    push_alignment_filter (some (-(1 / 4))) = AlignFilter.atrim (1 / 4) := by
  have h := push_alignment_filter_amended (1 / 4) (by norm_num)
  refine ⟨?_, h.2.1⟩
  rw [h.1]
  have hr : rustRound ((1 : ℚ) / 4 * 1000) = 250 := by
    unfold rustRound
    rw [if_pos (by norm_num)]
    norm_num
  rw [hr]
  rfl

/-! ### C2: pause drops samples but keeps publishing and keeps the stream -/

/-- C2: with `recording_paused` set, the screen callback still publishes
the presentation timestamp to the camera sync engine but produces no
write to the video encoder pipe; the system-audio callback and the mic
reader write no bytes; and pause/resume leave the OS capture stream and
the encoder subprocesses untouched (they only flip flags and the clock). -/
theorem paused_callbacks_drop_writes_keep_stream (writerPresent : Bool)
    (imageBuffer : Option (List Nat)) (pts_ns : Nat) (sysMuted micMuted : Bool)
    (audio_buffers : Option (List AudioPlaneQ)) (chunk : List Nat)
    (r : Recorder) (now : Nat) :
    screenCallbackEffects true writerPresent imageBuffer pts_ns =
      [CaptureEffect.publishScreenPts pts_ns] ∧
    audioCallbackEffects true sysMuted writerPresent audio_buffers = [] ∧
    micReaderStep true micMuted chunk = [] ∧
    (r.pause now).1.sck_active = r.sck_active ∧
    (r.pause now).1.sck_stream_running = r.sck_stream_running ∧
    (r.pause now).1.sck_ffmpeg_alive = r.sck_ffmpeg_alive ∧
    (r.pause now).1.sck_mic_alive = r.sck_mic_alive ∧
    (r.resume now).1.sck_active = r.sck_active ∧
    (r.resume now).1.sck_stream_running = r.sck_stream_running ∧
    (r.resume now).1.sck_ffmpeg_alive = r.sck_ffmpeg_alive ∧
    (r.resume now).1.sck_mic_alive = r.sck_mic_alive := by
  refine ⟨rfl, rfl, rfl, ?_, ?_, ?_, ?_, ?_, ?_, ?_, ?_⟩ <;>
    cases hrec : r.state.is_recording <;>
    cases hp : r.state.is_paused <;>
    simp [Recorder.pause, Recorder.resume, hrec, hp]

/-! ### C3: what `set_sync_enabled` resets, and when -/

/-- C3 counterexample: enabling sync on a disabled handle that already
holds a buffered frame clears nothing and resets no counter —
`frame_in_count` stays 1 and the buffer stays nonempty — because the reset
in `set_sync_enabled` runs only on the enabled-to-disabled transition. -/
theorem set_sync_enabled_enable_does_not_reset_cx :
    pushedOnce.sync_enabled = false ∧
    pushedOnce.frame_in_count = 1 ∧
    pushedOnce.frame_buffer.frames.length = 1 ∧
    (pushedOnce.set_sync_enabled true).sync_enabled = true ∧
    (pushedOnce.set_sync_enabled true).frame_in_count = 1 ∧
    (pushedOnce.set_sync_enabled true).frame_buffer.frames.length = 1 := by
  decide

/-- C3 amended: the buffer clear and the reset of the counters and of the
adaptive target offset happen when `set_sync_enabled` transitions from
enabled to disabled (as on each recording stop); the disabled-to-enabled
transition (on each start with camera) changes only the flag. -/
theorem set_sync_enabled_resets_on_disable (s : CameraSync) :
    (s.sync_enabled = true →
      (s.set_sync_enabled false).frame_buffer.frames = [] ∧
      (s.set_sync_enabled false).frame_buffer.last_frame = none ∧
      (s.set_sync_enabled false).last_emitted_frame = none ∧
      (s.set_sync_enabled false).frame_in_count = 0 ∧
      (s.set_sync_enabled false).frame_out_count = 0 ∧
      (s.set_sync_enabled false).screen_tick_count = 0 ∧
      (s.set_sync_enabled false).dropped_frames = 0 ∧
      (s.set_sync_enabled false).repeated_frames = 0 ∧
      (s.set_sync_enabled false).target_offset_ns = 30000000) ∧
    (s.sync_enabled = false →
      s.set_sync_enabled true = { s with sync_enabled := true }) := by
  constructor
  · intro h
    simp [CameraSync.set_sync_enabled, h, SyncedFrameBuffer.clear]
  · intro h
    simp [CameraSync.set_sync_enabled, h]

/-- C3 amended witness: disabling after an enable-with-buffered-frame
resets `frame_in_count`; the enable itself only flipped the flag. -/
theorem set_sync_enabled_resets_on_disable_witness :
    ((pushedOnce.set_sync_enabled true).set_sync_enabled false).frame_in_count = 0 ∧
    pushedOnce.set_sync_enabled true = { pushedOnce with sync_enabled := true } := by
  constructor
  · exact ((set_sync_enabled_resets_on_disable
      (pushedOnce.set_sync_enabled true)).1 (by decide)).2.2.2.1
  · exact (set_sync_enabled_resets_on_disable pushedOnce).2 (by decide)

/-! ### C1: rollback of `Recorder::start` on startup failure -/

/-- C1 (code bug): `Recorder::start` marks the session recording before
calling `ffmpeg_locator.resolve()?`, and that failure path performs no
rollback: `start` returns the error yet leaves `is_recording = true` and
`output_file` set, so a subsequent `start` in a working environment fails
with AlreadyRecording instead of succeeding.  Only the later
`sck_recorder.start` failure path rolls back (final conjunct), which is
what the claim and the specification require of every failure path. -/
theorem start_resolve_failure_skips_rollback :
    (Recorder.init.start envResolveFail optsPlain "out.mp4" 0).2 =
      Except.error "FFmpeg not found. Install via Homebrew or set FFMPEG_PATH." ∧
    (Recorder.init.start envResolveFail optsPlain "out.mp4" 0).1.state.is_recording = true ∧
    (Recorder.init.start envResolveFail optsPlain "out.mp4" 0).1.state.output_file =
      some "out.mp4" ∧
    ((Recorder.init.start envResolveFail optsPlain "out.mp4" 0).1.start envGood optsPlain
      "out2.mp4" 1).2 = Except.error "Recording already in progress" ∧
    (Recorder.init.start envSckFail optsPlain "out.mp4" 0).1.state.is_recording = false ∧
    (Recorder.init.start envSckFail optsPlain "out.mp4" 0).1.state.output_file = none :=
  ⟨rfl, rfl, rfl, rfl, rfl, rfl⟩

/-! ### C5: the recording clock tracks exactly the running time -/

theorem clockAgrees_applyOp {c : RecordingClock} {sp : ClockSpec}
    (h : ClockAgrees c sp) (t : Nat) (ht : sp.lastT ≤ t) (op : ClockOp) :
    ClockAgrees (c.applyOp (t, op)) (sp.applyOp (t, op)) ∧
    (sp.applyOp (t, op)).lastT = t := by
  obtain ⟨hrun, hr, hnr⟩ := h
  cases op
  case start =>
    refine ⟨⟨rfl, ?_, ?_⟩, rfl⟩
    · intro _
      refine ⟨t, rfl, le_refl t, ?_⟩
      show 0 + (t - t) = 0
      omega
    · intro hfalse
      cases hfalse
  case pause =>
    refine ⟨?_, rfl⟩
    show ClockAgrees (c.pauseAt t) _
    unfold RecordingClock.pauseAt
    cases hcr : c.running
    · rw [if_neg (by simp)]
      have hacc := hnr hcr
      refine ⟨by rw [hcr]; rfl, ?_, ?_⟩
      · intro habs
        rw [hcr] at habs
        cases habs
      · intro _
        show c.accumulated = (sp.advance t).total
        rw [hacc]
        unfold ClockSpec.advance
        rw [hrun] at hcr
        simp [hcr]
    · rw [if_pos (by simp)]
      obtain ⟨s, hs, hsle, htot⟩ := hr hcr
      rw [hs]
      refine ⟨rfl, ?_, ?_⟩
      · intro habs
        cases habs
      · intro _
        show c.accumulated + (t - s) = (sp.advance t).total
        unfold ClockSpec.advance
        rw [hrun] at hcr
        rw [hcr]
        simp only [if_true]
        omega
  case resume =>
    refine ⟨?_, rfl⟩
    show ClockAgrees (c.resumeAt t) _
    unfold RecordingClock.resumeAt
    cases hcr : c.running
    · rw [if_pos (by simp)]
      have hacc := hnr hcr
      refine ⟨rfl, ?_, ?_⟩
      · intro _
        refine ⟨t, rfl, le_refl t, ?_⟩
        show c.accumulated + (t - t) = (sp.advance t).total
        unfold ClockSpec.advance
        rw [hrun] at hcr
        simp [hcr, hacc]
      · intro habs
        cases habs
    · rw [if_neg (by simp)]
      obtain ⟨s, hs, hsle, htot⟩ := hr hcr
      refine ⟨by rw [hcr]; rfl, ?_, ?_⟩
      · intro _
        refine ⟨s, hs, le_trans hsle ht, ?_⟩
        show c.accumulated + (t - s) = (sp.advance t).total
        unfold ClockSpec.advance
        rw [hrun] at hcr
        rw [hcr]
        simp only [if_true]
        omega
      · intro habs
        rw [hcr] at habs
        cases habs

theorem clockAgrees_runTrace {c : RecordingClock} {sp : ClockSpec}
    (es : List (Nat × ClockOp)) (h : ClockAgrees c sp)
    (hchrono : chronoFrom sp.lastT es = true) :
    ClockAgrees (c.runTrace es) (sp.runTrace es) ∧
    (sp.runTrace es).lastT = lastTimeOf sp.lastT es := by
  induction es generalizing c sp with
  | nil => exact ⟨h, rfl⟩
  | cons e rest ih =>
    obtain ⟨t, op⟩ := e
    unfold chronoFrom at hchrono
    rw [Bool.and_eq_true, decide_eq_true_eq] at hchrono
    obtain ⟨hstep, hlast⟩ := clockAgrees_applyOp h t hchrono.1 op
    have hrec := ih hstep (by rw [hlast]; exact hchrono.2)
    constructor
    · show ClockAgrees ((c.applyOp (t, op)).runTrace rest) ((sp.applyOp (t, op)).runTrace rest)
      exact hrec.1
    · show ((sp.applyOp (t, op)).runTrace rest).lastT = lastTimeOf t rest
      rw [hrec.2, hlast]

/-- Elapsed time agrees with the reference total at any time at or after
the last processed event. -/
theorem clockAgrees_elapsed {c : RecordingClock} {sp : ClockSpec}
    (h : ClockAgrees c sp) (now : Nat) (hnow : sp.lastT ≤ now) :
    c.elapsedAt now = sp.elapsedAt now := by
  obtain ⟨hrun, hr, hnr⟩ := h
  unfold RecordingClock.elapsedAt ClockSpec.elapsedAt ClockSpec.advance
  cases hcr : c.running
  · have hacc := hnr hcr
    rw [hrun] at hcr
    simp [hcr, hacc]
  · obtain ⟨s, hs, hsle, htot⟩ := hr hcr
    rw [hrun] at hcr
    rw [hcr, hs]
    simp only [if_true]
    omega

/-- C5: starting the clock at time `t0` and applying any chronological
sequence of pause/resume/start events, the elapsed time at any later
moment equals the reference total running time since the last start;
moreover `elapsed()` is `accumulated + (now - start_instant)` while
running, exactly `accumulated` while not running, and in particular is
constant while paused. -/
theorem recording_clock_tracks_running_time (c0 : RecordingClock) (t0 now : Nat)
    (es : List (Nat × ClockOp)) (hchrono : chronoFrom t0 es = true)
    (hnow : lastTimeOf t0 es ≤ now) :
    ((c0.startAt t0).runTrace es).elapsedAt now =
      (ClockSpec.runTrace ⟨true, 0, t0⟩ es).elapsedAt now ∧
    (∀ s, ((c0.startAt t0).runTrace es).running = true →
      ((c0.startAt t0).runTrace es).start_instant = some s →
      ((c0.startAt t0).runTrace es).elapsedAt now =
        ((c0.startAt t0).runTrace es).accumulated + (now - s)) ∧
    (((c0.startAt t0).runTrace es).running = false →
      ((c0.startAt t0).runTrace es).elapsedAt now =
        ((c0.startAt t0).runTrace es).accumulated) ∧
    (((c0.startAt t0).runTrace es).running = false → ∀ t1 t2,
      ((c0.startAt t0).runTrace es).elapsedAt t1 =
        ((c0.startAt t0).runTrace es).elapsedAt t2) := by
  have hinit : ClockAgrees (c0.startAt t0) ⟨true, 0, t0⟩ := by
    refine ⟨rfl, ?_, ?_⟩
    · intro _
      exact ⟨t0, rfl, le_refl t0, by simp [RecordingClock.startAt]⟩
    · intro habs
      cases habs
  obtain ⟨hagree, hlast⟩ := clockAgrees_runTrace es hinit hchrono
  refine ⟨clockAgrees_elapsed hagree now (by rw [hlast]; exact hnow), ?_, ?_, ?_⟩
  · intro s hrun hs
    unfold RecordingClock.elapsedAt
    simp [hrun, hs]
  · intro hrun
    unfold RecordingClock.elapsedAt
    simp [hrun]
  · intro hrun t1 t2
    unfold RecordingClock.elapsedAt
    simp [hrun]

/-- C5 witness: a start at 0, pause at 10, resume at 30, pause at 40, read
at 50 — both the implementation clock and the reference clock report 20
elapsed units. -/
theorem recording_clock_tracks_running_time_witness :
    ((RecordingClock.init.startAt 0).runTrace
      [(10, ClockOp.pause), (30, ClockOp.resume), (40, ClockOp.pause)]).elapsedAt 50 =
      (ClockSpec.runTrace ⟨true, 0, 0⟩
        [(10, ClockOp.pause), (30, ClockOp.resume), (40, ClockOp.pause)]).elapsedAt 50 ∧
    (ClockSpec.runTrace ⟨true, 0, 0⟩
      [(10, ClockOp.pause), (30, ClockOp.resume), (40, ClockOp.pause)]).elapsedAt 50 = 20 := by
  refine ⟨?_, by decide⟩
  exact (recording_clock_tracks_running_time RecordingClock.init 0 50
    [(10, ClockOp.pause), (30, ClockOp.resume), (40, ClockOp.pause)]
    (by decide) (by decide)).1

/-! ### C4: the pop policy of the synced frame buffer -/

theorem update_stats_frames (b : SyncedFrameBuffer) :
    (SyncedFrameBuffer.update_stats b).frames = b.frames := by
  unfold SyncedFrameBuffer.update_stats
  dsimp only
  split <;> split <;> rfl

theorem head?_drop_eq {α : Type _} (l : List α) (n : Nat) :
    (l.drop n).head? = l[n]? := by
  induction l generalizing n with
  | nil => simp
  | cons a t ih =>
    cases n with
    | zero => simp
    | succ m =>
      rw [List.drop_succ_cons, List.getElem?_cons_succ]
      exact ih m

theorem dropWhile_head?_false {α : Type _} (p : α → Bool) (l : List α) (f : α)
    (h : (l.dropWhile p).head? = some f) : p f = false := by
  induction l with
  | nil => simp at h
  | cons a t ih =>
    rw [List.dropWhile_cons] at h
    by_cases hp : p a
    · rw [if_pos hp] at h
      exact ih h
    · rw [if_neg hp] at h
      simp only [List.head?_cons, Option.some.injEq] at h
      subst h
      exact Bool.eq_false_iff.mpr hp

/-- Closed form of the candidate scan: it returns the index (relative to
`i`) of the last frame of the longest at-or-before-target prefix, or the
accumulator when that prefix is empty. -/
theorem candidateAux_eq (T : Nat) (l : List CameraFramePayload) (i : Nat) (acc : Option Nat) :
    candidateAux T l i acc =
      if (l.takeWhile fun f => decide (f.pts_ns ≤ T)).length = 0 then acc
      else some (i + (l.takeWhile fun f => decide (f.pts_ns ≤ T)).length - 1) := by
  induction l generalizing i acc with
  | nil => simp [candidateAux]
  | cons f rest ih =>
    show (if f.pts_ns ≤ T then candidateAux T rest (i + 1) (some i) else acc) = _
    by_cases hf : f.pts_ns ≤ T
    · rw [if_pos hf, ih, List.takeWhile_cons_of_pos (by simpa using hf), List.length_cons]
      by_cases h0 : (rest.takeWhile fun g => decide (g.pts_ns ≤ T)).length = 0
      · rw [if_pos h0, if_neg (by omega)]
        congr 1
        omega
      · rw [if_neg h0, if_neg (by omega)]
        congr 1
        omega
    · rw [if_neg hf, List.takeWhile_cons_of_neg (by simpa using hf)]
      simp

theorem pop_eq_of_candidate_some {b : SyncedFrameBuffer} {T idx : Nat}
    (h : candidateAux T b.frames 0 none = some idx) :
    b.pop_for_screen_pts T =
      ((b.frames.drop idx).head?,
       SyncedFrameBuffer.update_stats { b with frames := b.frames.drop (idx + 1) }) := by
  unfold SyncedFrameBuffer.pop_for_screen_pts
  rw [h]

theorem pop_eq_of_candidate_none {b : SyncedFrameBuffer} {T : Nat}
    (h : candidateAux T b.frames 0 none = none) :
    b.pop_for_screen_pts T = (none, b) := by
  unfold SyncedFrameBuffer.pop_for_screen_pts
  rw [h]

/-- Anatomy of a successful pop: the at-or-before-target prefix is
nonempty, the returned frame sits at its last index, and the remaining
frames are the suffix from the prefix length on. -/
theorem pop_some_eq {b : SyncedFrameBuffer} {T : Nat} {f : CameraFramePayload}
    {b' : SyncedFrameBuffer} (h : b.pop_for_screen_pts T = (some f, b')) :
    1 ≤ (b.frames.takeWhile fun g => decide (g.pts_ns ≤ T)).length ∧
    (b.frames.takeWhile fun g => decide (g.pts_ns ≤ T)).length ≤ b.frames.length ∧
    b'.frames = b.frames.drop (b.frames.takeWhile fun g => decide (g.pts_ns ≤ T)).length ∧
    (b.frames.drop ((b.frames.takeWhile fun g => decide (g.pts_ns ≤ T)).length - 1)).head? =
      some f := by
  have hpre : (b.frames.takeWhile fun g => decide (g.pts_ns ≤ T)) <+: b.frames :=
    List.takeWhile_prefix _
  have hk1 : (b.frames.takeWhile fun g => decide (g.pts_ns ≤ T)).length ≤ b.frames.length :=
    hpre.length_le
  by_cases h0 : (b.frames.takeWhile fun g => decide (g.pts_ns ≤ T)).length = 0
  · have hc : candidateAux T b.frames 0 none = none := by
      rw [candidateAux_eq, if_pos h0]
    rw [pop_eq_of_candidate_none hc] at h
    simp at h
  · have hc : candidateAux T b.frames 0 none =
        some ((b.frames.takeWhile fun g => decide (g.pts_ns ≤ T)).length - 1) := by
      rw [candidateAux_eq, if_neg h0]
      congr 1
      omega
    rw [pop_eq_of_candidate_some hc] at h
    rw [Prod.mk.injEq] at h
    obtain ⟨hfst, hsnd⟩ := h
    have hfr : b'.frames = b.frames.drop
        ((b.frames.takeWhile fun g => decide (g.pts_ns ≤ T)).length - 1 + 1) := by
      rw [← hsnd]
      exact update_stats_frames _
    have hkk : (b.frames.takeWhile fun g => decide (g.pts_ns ≤ T)).length - 1 + 1 =
        (b.frames.takeWhile fun g => decide (g.pts_ns ≤ T)).length := by omega
    exact ⟨by omega, hk1, by rw [hfr, hkk], hfst⟩

/-- A pop that returns no frame leaves the buffer untouched. -/
theorem pop_none_eq {b : SyncedFrameBuffer} {T : Nat} {b' : SyncedFrameBuffer}
    (h : b.pop_for_screen_pts T = (none, b')) : b' = b := by
  by_cases h0 : (b.frames.takeWhile fun g => decide (g.pts_ns ≤ T)).length = 0
  · have hc : candidateAux T b.frames 0 none = none := by
      rw [candidateAux_eq, if_pos h0]
    rw [pop_eq_of_candidate_none hc] at h
    rw [Prod.mk.injEq] at h
    exact h.2.symm
  · have hc : candidateAux T b.frames 0 none =
        some ((b.frames.takeWhile fun g => decide (g.pts_ns ≤ T)).length - 1) := by
      rw [candidateAux_eq, if_neg h0]
      congr 1
      omega
    rw [pop_eq_of_candidate_some hc] at h
    rw [Prod.mk.injEq] at h
    have h' := h.1
    have hlt : (b.frames.takeWhile fun g => decide (g.pts_ns ≤ T)).length - 1 <
        b.frames.length := by
      have hpre : (b.frames.takeWhile fun g => decide (g.pts_ns ≤ T)) <+: b.frames :=
        List.takeWhile_prefix _
      have := hpre.length_le
      omega
    rw [head?_drop_eq] at h'
    rw [List.getElem?_eq_getElem hlt] at h'
    cases h'

/-- General pop correctness over a pts-sorted buffer: a returned frame is
at or before the target and sat at some index `i` whose strict
predecessors are exactly the discarded frames; every remaining frame is
strictly later than the returned one; a frame is returned whenever one
qualifies; and a frameless pop leaves the buffer unchanged. -/
theorem pop_spec_sorted (b : SyncedFrameBuffer) (T : Nat)
    (hsorted : List.Pairwise (fun a c => a.pts_ns ≤ c.pts_ns) b.frames) :
    (∀ f, (b.pop_for_screen_pts T).1 = some f →
      f.pts_ns ≤ T ∧
      (∃ i, b.frames[i]? = some f ∧
        (b.pop_for_screen_pts T).2.frames = b.frames.drop (i + 1)) ∧
      ∀ g ∈ (b.pop_for_screen_pts T).2.frames, f.pts_ns < g.pts_ns) ∧
    ((∃ g ∈ b.frames, g.pts_ns ≤ T) → ((b.pop_for_screen_pts T).1).isSome = true) ∧
    ((b.pop_for_screen_pts T).1 = none →
      (b.pop_for_screen_pts T).2.frames = b.frames) := by
  have htd := List.takeWhile_append_dropWhile (fun g => decide (g.pts_ns ≤ T)) b.frames
  refine ⟨?_, ?_, ?_⟩
  · intro f hf
    have hpe : b.pop_for_screen_pts T = (some f, (b.pop_for_screen_pts T).2) := by
      rw [← hf]
    obtain ⟨hk1, hk2, hfr, hhead⟩ := pop_some_eq hpe
    -- decompose the drop at index k-1 into the last prefix frame and the suffix
    have hsplit : ((b.frames.takeWhile fun g => decide (g.pts_ns ≤ T)) ++
        (b.frames.dropWhile fun g => decide (g.pts_ns ≤ T))).drop
          ((b.frames.takeWhile fun g => decide (g.pts_ns ≤ T)).length - 1) =
        (b.frames.takeWhile fun g => decide (g.pts_ns ≤ T)).drop
          ((b.frames.takeWhile fun g => decide (g.pts_ns ≤ T)).length - 1) ++
        (b.frames.dropWhile fun g => decide (g.pts_ns ≤ T)) :=
      List.drop_append_of_le_length (by omega)
    rw [htd] at hsplit
    have hlen1 : ((b.frames.takeWhile fun g => decide (g.pts_ns ≤ T)).drop
        ((b.frames.takeWhile fun g => decide (g.pts_ns ≤ T)).length - 1)).length = 1 := by
      rw [List.length_drop]
      omega
    obtain ⟨f0, hf0⟩ := List.length_eq_one.mp hlen1
    rw [hf0] at hsplit
    rw [hsplit] at hhead
    simp only [List.cons_append, List.head?_cons, Option.some.injEq] at hhead
    subst hhead
    have hmemtw : f0 ∈ b.frames.takeWhile fun g => decide (g.pts_ns ≤ T) :=
      List.drop_subset ((b.frames.takeWhile fun g => decide (g.pts_ns ≤ T)).length - 1)
        (b.frames.takeWhile fun g => decide (g.pts_ns ≤ T))
        (by rw [hf0]; exact List.mem_singleton_self f0)
    have hfT : f0.pts_ns ≤ T := by
      have := List.mem_takeWhile_imp hmemtw
      simpa using this
    have hdropk := List.drop_left (b.frames.takeWhile fun g => decide (g.pts_ns ≤ T))
      (b.frames.dropWhile fun g => decide (g.pts_ns ≤ T))
    rw [htd] at hdropk
    refine ⟨hfT, ⟨(b.frames.takeWhile fun g => decide (g.pts_ns ≤ T)).length - 1, ?_, ?_⟩, ?_⟩
    · rw [← head?_drop_eq, hsplit]
      rfl
    · rw [hfr]
      congr 1
      omega
    · intro g hg
      rw [hfr, hdropk] at hg
      cases hdw : b.frames.dropWhile fun g => decide (g.pts_ns ≤ T) with
      | nil =>
        rw [hdw] at hg
        cases hg
      | cons hd tl =>
        have hphd : (fun g => decide (g.pts_ns ≤ T)) hd = false :=
          dropWhile_head?_false _ b.frames hd (by rw [hdw]; rfl)
        have hThd : T < hd.pts_ns := by
          have := of_decide_eq_false hphd
          omega
        have hsdw : List.Pairwise (fun a c => a.pts_ns ≤ c.pts_ns)
            (b.frames.dropWhile fun g => decide (g.pts_ns ≤ T)) :=
          hsorted.sublist (List.dropWhile_sublist _)
        rw [hdw] at hsdw hg
        have hdle : hd.pts_ns ≤ g.pts_ns := by
          cases hg with
          | head => exact le_refl _
          | tail _ htl => exact (List.pairwise_cons.mp hsdw).1 g htl
        omega
  · rintro ⟨g, hgmem, hgle⟩
    have hk0 : ¬(b.frames.takeWhile fun x => decide (x.pts_ns ≤ T)).length = 0 := by
      intro h0
      have htw0 : (b.frames.takeWhile fun x => decide (x.pts_ns ≤ T)) = [] :=
        List.length_eq_zero.mp h0
      have hdwl : (b.frames.dropWhile fun x => decide (x.pts_ns ≤ T)) = b.frames := by
        rw [htw0] at htd
        simpa using htd
      cases hl : b.frames with
      | nil =>
        rw [hl] at hgmem
        cases hgmem
      | cons a t =>
        have hpa : (fun x => decide (x.pts_ns ≤ T)) a = false :=
          dropWhile_head?_false _ b.frames a (by rw [hdwl, hl]; rfl)
        have hTa : T < a.pts_ns := by
          have := of_decide_eq_false hpa
          omega
        rw [hl] at hgmem hsorted
        have hag : a.pts_ns ≤ g.pts_ns := by
          cases hgmem with
          | head => exact le_refl _
          | tail _ htl => exact (List.pairwise_cons.mp hsorted).1 g htl
        omega
    have hc : candidateAux T b.frames 0 none =
        some ((b.frames.takeWhile fun x => decide (x.pts_ns ≤ T)).length - 1) := by
      rw [candidateAux_eq, if_neg hk0]
      congr 1
      omega
    rw [pop_eq_of_candidate_some hc]
    show ((b.frames.drop _).head?).isSome = true
    rw [head?_drop_eq, List.getElem?_eq_getElem ?hlt]
    · rfl
    case hlt =>
      have hpre : (b.frames.takeWhile fun x => decide (x.pts_ns ≤ T)) <+: b.frames :=
        List.takeWhile_prefix _
      have := hpre.length_le
      omega
  · intro hnone
    have hpe : b.pop_for_screen_pts T = (none, (b.pop_for_screen_pts T).2) := by
      rw [← hnone]
    rw [pop_none_eq hpe]

/-- C4: for every screen PTS `S`, assuming the buffer is sorted by
`pts_ns`, the pop performed at the adjusted target `S - target_offset`
(saturating `u64` subtraction) returns only frames with
`pts ≤ S - target_offset`, returns one whenever one qualifies, discards
exactly the frames buffered before the returned one (the remainder is the
suffix past its index), leaves only frames strictly later than the
returned frame, and touches nothing when no frame qualifies. -/
theorem emit_pop_respects_adjusted_target (s : CameraSync) (screen_pts_ns : Nat)
    (hsorted : List.Pairwise (fun a c => a.pts_ns ≤ c.pts_ns) s.frame_buffer.frames) :
    (∀ f, (s.frame_buffer.pop_for_screen_pts (screen_pts_ns - s.target_offset_ns)).1 = some f →
      f.pts_ns ≤ screen_pts_ns - s.target_offset_ns ∧
      (∃ i, s.frame_buffer.frames[i]? = some f ∧
        (s.frame_buffer.pop_for_screen_pts (screen_pts_ns - s.target_offset_ns)).2.frames =
          s.frame_buffer.frames.drop (i + 1)) ∧
      ∀ g ∈ (s.frame_buffer.pop_for_screen_pts (screen_pts_ns - s.target_offset_ns)).2.frames,
        f.pts_ns < g.pts_ns) ∧
    ((∃ g ∈ s.frame_buffer.frames, g.pts_ns ≤ screen_pts_ns - s.target_offset_ns) →
      ((s.frame_buffer.pop_for_screen_pts (screen_pts_ns - s.target_offset_ns)).1).isSome =
        true) ∧
    ((s.frame_buffer.pop_for_screen_pts (screen_pts_ns - s.target_offset_ns)).1 = none →
      (s.frame_buffer.pop_for_screen_pts (screen_pts_ns - s.target_offset_ns)).2.frames =
        s.frame_buffer.frames) :=
  pop_spec_sorted s.frame_buffer (screen_pts_ns - s.target_offset_ns) hsorted

/-- C4 witness: on the two-frame buffer (pts 5 and 12) with offset 6 and
screen PTS 20, the pop at adjusted target 14 returns the frame with
pts 12, whose predecessor (pts 5) is discarded and nothing remains. -/
theorem emit_pop_respects_adjusted_target_witness :
    ((twoFrameState.frame_buffer.pop_for_screen_pts
      (20 - twoFrameState.target_offset_ns)).1).isSome = true ∧
    (twoFrameState.frame_buffer.pop_for_screen_pts
      (20 - twoFrameState.target_offset_ns)).1 = some (camFrame 1 12) ∧
    (twoFrameState.frame_buffer.pop_for_screen_pts
      (20 - twoFrameState.target_offset_ns)).2.frames = [] := by
  refine ⟨?_, by decide, by decide⟩
  exact (emit_pop_respects_adjusted_target twoFrameState 20 (by decide)).2.1
    ⟨camFrame 0 5, by decide, by decide⟩

/-! ### C8: counter balance of the camera sync engine -/

set_option maxRecDepth 4000 in
/-- One step of the push/emit interleaving preserves the balance
`frame_in = buffered + frame_out + pop-discarded + overflow-dropped`. -/
theorem camInv_step (s : CameraSync) (op : CamOp) (h : CamInv s) : CamInv (s.step op) := by
  unfold CamInv at h
  cases op with
  | push f =>
    show CamInv (s.push_frame f).1
    have hlen : (s.frame_buffer.push f).frames.length =
        s.frame_buffer.frames.length + 1 -
          (s.frame_buffer.frames.length + 1 - CAMERA_BUFFER_CAPACITY) := by
      unfold SyncedFrameBuffer.push
      rw [update_stats_frames]
      simp [List.length_drop]
    unfold CamInv
    unfold CameraSync.push_frame
    by_cases hen : s.sync_enabled
    · simp only [hen, Bool.not_true, Bool.false_eq_true, if_false]
      omega
    · simp only [Bool.not_eq_true] at hen
      simp only [hen, Bool.not_false, if_true]
      omega
  | emit pts =>
    show CamInv (s.emit_for_screen_pts pts).1
    unfold CamInv
    unfold CameraSync.emit_for_screen_pts
    by_cases hen : s.sync_enabled
    · simp only [hen, Bool.not_true, Bool.false_eq_true, if_false]
      rcases hpop : s.frame_buffer.pop_for_screen_pts (pts - s.target_offset_ns)
        with ⟨o, b2⟩
      split
      · rename_i frame heq
        have ho : o = some frame := by simpa using heq
        subst ho
        obtain ⟨hk1, hk2, hfr, -⟩ := pop_some_eq hpop
        have hblen : b2.frames.length =
            s.frame_buffer.frames.length -
              (s.frame_buffer.frames.takeWhile fun g =>
                decide (g.pts_ns ≤ pts - s.target_offset_ns)).length := by
          rw [hfr, List.length_drop]
        dsimp only
        omega
      · rename_i heq
        have ho : o = none := by simpa using heq
        subst ho
        have hb2 : b2 = s.frame_buffer := pop_none_eq hpop
        have hblen : b2.frames.length = s.frame_buffer.frames.length := by rw [hb2]
        split <;> (dsimp only; omega)
    · simp only [Bool.not_eq_true] at hen
      simp only [hen, Bool.not_false, if_true]
      omega

/-- C8 counterexample: after three pushes (pts 10, 20, 30) and one screen
tick whose adjusted target exceeds all three, the pop silently discards
two frames while `frame_out_count` grows by one, so
`frame_in - frame_out - repeated = 2` while the buffer is empty and both
the `dropped_frames` counter and the overflow-drop count are zero: the
claimed balance fails. -/
theorem camera_counter_balance_cx :
    threePushOneEmit.frame_in_count = 3 ∧
    threePushOneEmit.frame_out_count = 1 ∧
    threePushOneEmit.repeated_frames = 0 ∧
    threePushOneEmit.frame_buffer.frames.length = 0 ∧
    threePushOneEmit.dropped_frames = 0 ∧
    threePushOneEmit.ghost_overflow_dropped = 0 ∧
    threePushOneEmit.frame_in_count - threePushOneEmit.frame_out_count -
        threePushOneEmit.repeated_frames ≠
      threePushOneEmit.frame_buffer.frames.length + threePushOneEmit.dropped_frames ∧
    threePushOneEmit.frame_in_count - threePushOneEmit.frame_out_count -
        threePushOneEmit.repeated_frames ≠
      threePushOneEmit.frame_buffer.frames.length +
        threePushOneEmit.ghost_overflow_dropped := by
  decide

/-- C8 amended: the balance that does hold at every point of every
push/emit interleaving is `frame_in_count = buffer length +
frame_out_count + frames silently discarded by pops + frames dropped by
the capacity bound` (the two ghost counters); `repeated_frames` (re-emits
of the cached frame, consuming nothing) and `dropped_frames` (frameless
screen ticks) play no part in the balance. -/
theorem camera_counter_balance (ops : List CamOp) (s0 : CameraSync)
    (h0 : CamInv s0) : CamInv (s0.run ops) := by
  induction ops generalizing s0 with
  | nil => exact h0
  | cons op rest ih =>
    show CamInv ((s0.step op).run rest)
    exact ih (s0.step op) (camInv_step s0 op h0)

/-- C8 amended witness: the balance holds on the concrete three-push,
one-emit trace, where two frames were discarded by the pop. -/
theorem camera_counter_balance_witness :
    CamInv threePushOneEmit ∧ threePushOneEmit.ghost_pop_discarded = 2 := by
  constructor
  · exact camera_counter_balance
      [CamOp.push (camFrame 0 10), CamOp.push (camFrame 1 20),
       CamOp.push (camFrame 2 30), CamOp.emit 100000000]
      (CameraSync.new.set_sync_enabled true) (by unfold CamInv; decide)
  · decide

/-! ### C7: the atempo chain -/

theorem halveLoop_spec (r : ℚ) :
    (halveLoop r).1.prod * (halveLoop r).2 = r ∧
    (∀ x ∈ (halveLoop r).1, x = 2) ∧
    (halveLoop r).2 ≤ 2 ∧
    (0 < r → 0 < (halveLoop r).2) ∧
    (1 / 2 ≤ r → 1 / 2 ≤ (halveLoop r).2) := by
  by_cases h : 2 < r
  · have ih := halveLoop_spec (r / 2)
    rw [halveLoop, dif_pos h]
    dsimp only
    refine ⟨?_, ?_, ih.2.2.1, fun _ => ih.2.2.2.1 (by linarith),
      fun _ => ih.2.2.2.2 (by linarith)⟩
    · rw [List.prod_cons]
      have h1 := ih.1
      calc 2 * (halveLoop (r / 2)).1.prod * (halveLoop (r / 2)).2
          = 2 * ((halveLoop (r / 2)).1.prod * (halveLoop (r / 2)).2) := by ring
        _ = 2 * (r / 2) := by rw [h1]
        _ = r := by ring
    · intro x hx
      rcases List.mem_cons.mp hx with h2 | h2
      · exact h2
      · exact ih.2.1 x h2
  · rw [halveLoop, dif_neg h]
    dsimp only
    exact ⟨by simp, by simp, by linarith [not_lt.mp h], fun hr => hr, fun hr => hr⟩
termination_by (⌈r⌉).toNat
decreasing_by exact ceilHalf_toNat_lt h

theorem doubleLoop_spec (r : ℚ) :
    (doubleLoop r).1.prod * (doubleLoop r).2 = r ∧
    (∀ x ∈ (doubleLoop r).1, x = 1 / 2) ∧
    (0 < r → 0 < (doubleLoop r).2) ∧
    (0 < r → 1 / 2 ≤ (doubleLoop r).2) ∧
    (r ≤ 2 → (doubleLoop r).2 ≤ 2) := by
  by_cases h : 0 < r ∧ r < 1 / 2
  · have h2r : r / (1 / 2) = 2 * r := by ring
    have ih := doubleLoop_spec (r / (1 / 2))
    rw [doubleLoop, dif_pos h]
    dsimp only
    refine ⟨?_, ?_, ?_, ?_, ?_⟩
    · rw [List.prod_cons]
      have h1 := ih.1
      calc 1 / 2 * (doubleLoop (r / (1 / 2))).1.prod * (doubleLoop (r / (1 / 2))).2
          = 1 / 2 * ((doubleLoop (r / (1 / 2))).1.prod * (doubleLoop (r / (1 / 2))).2) := by
            ring
        _ = 1 / 2 * (r / (1 / 2)) := by rw [h1]
        _ = r := by ring
    · intro x hx
      rcases List.mem_cons.mp hx with hx2 | hx2
      · exact hx2
      · exact ih.2.1 x hx2
    · intro _
      exact ih.2.2.1 (by rw [h2r]; linarith [h.1])
    · intro _
      exact ih.2.2.2.1 (by rw [h2r]; linarith [h.1])
    · intro _
      exact ih.2.2.2.2 (by rw [h2r]; linarith [h.2])
  · rw [doubleLoop, dif_neg h]
    dsimp only
    refine ⟨by simp, by simp, fun hr => hr, ?_, fun hr => hr⟩
    intro hr
    rcases not_and_or.mp h with h1 | h1
    · exact absurd hr h1
    · exact not_lt.mp h1
termination_by (⌈1 / r⌉).toNat
decreasing_by
  have hq : 1 / (r / (1 / 2)) = (1 / r) / 2 := by
    have hr0 : r ≠ 0 := ne_of_gt h.1
    field_simp
  rw [hq]
  apply ceilHalf_toNat_lt
  rw [lt_div_iff₀ h.1]
  linarith [h.2]

/-- C7 counterexample: for the ratio 4.0003 the chain is `[2, 2]` — the
final ratio 1.000075 is inside the 1e-4 dead band and is dropped — so the
product is 4 and misses the ratio by 3e-4, violating the claimed absolute
±1e-4 bound. -/
theorem build_atempo_chain_abs_error_cx :
    build_atempo_chain ((40003 : ℚ) / 10000) = [2, 2] ∧
    (build_atempo_chain ((40003 : ℚ) / 10000)).prod = 4 ∧
    ¬|(build_atempo_chain ((40003 : ℚ) / 10000)).prod - 40003 / 10000| ≤ 1 / 10000 := by
  have hhalve : halveLoop ((40003 : ℚ) / 10000) = ([2, 2], 40003 / 40000) := by
    rw [halveLoop, dif_pos (by norm_num)]
    rw [halveLoop, dif_pos (by norm_num)]
    rw [halveLoop, dif_neg (by norm_num)]
    norm_num
  have habs : |(40003 : ℚ) / 40000 - 1| = 3 / 40000 := by
    rw [show (40003 : ℚ) / 40000 - 1 = 3 / 40000 by norm_num,
      abs_of_nonneg (by norm_num)]
  have hchain : build_atempo_chain ((40003 : ℚ) / 10000) = [2, 2] := by
    unfold build_atempo_chain
    rw [if_neg (by norm_num), hhalve]
    dsimp only
    rw [doubleLoop, dif_neg (by norm_num)]
    dsimp only
    rw [if_neg (by rw [habs]; norm_num)]
    simp
  have hprod : (build_atempo_chain ((40003 : ℚ) / 10000)).prod = 4 := by
    rw [hchain]
    norm_num [List.prod_cons, List.prod_nil]
  refine ⟨hchain, hprod, ?_⟩
  rw [hprod, show (4 : ℚ) - 40003 / 10000 = -(3 / 10000) by norm_num, abs_neg,
    abs_of_nonneg (by norm_num)]
  norm_num

/-- C7 amended: every factor of `build_atempo_chain r` lies in `[1/2, 2]`,
and the product equals `r` divided by a residual factor within 1e-4 of 1:
the accuracy bound is relative — `|product − r| ≤ 1e-4 · product` — not
the absolute ±1e-4 of the claim (false for large `r`). -/
theorem build_atempo_chain_rel_error (r : ℚ) (hr : 0 < r) :
    (∀ x ∈ build_atempo_chain r, 1 / 2 ≤ x ∧ x ≤ 2) ∧
    0 < (build_atempo_chain r).prod ∧
    (∃ f : ℚ, 1 / 2 ≤ f ∧ f ≤ 2 ∧ |f - 1| ≤ 1 / 10000 ∧
      (build_atempo_chain r).prod * f = r) ∧
    |(build_atempo_chain r).prod - r| ≤ 1 / 10000 * (build_atempo_chain r).prod := by
  obtain ⟨hp1, hm1, hle1, hpos1, -⟩ := halveLoop_spec r
  obtain ⟨hp2, hm2, hpos2, hhalf2, hle2⟩ := doubleLoop_spec (halveLoop r).2
  have hr1pos : 0 < (halveLoop r).2 := hpos1 hr
  have hr2pos : 0 < (doubleLoop (halveLoop r).2).2 := hpos2 hr1pos
  have hr2half : 1 / 2 ≤ (doubleLoop (halveLoop r).2).2 := hhalf2 hr1pos
  have hr2le : (doubleLoop (halveLoop r).2).2 ≤ 2 := hle2 hle1
  have hprodpos1 : 0 < (halveLoop r).1.prod :=
    List.prod_pos fun x hx => by rw [hm1 x hx]; norm_num
  have hprodpos2 : 0 < (doubleLoop (halveLoop r).2).1.prod :=
    List.prod_pos fun x hx => by rw [hm2 x hx]; norm_num
  have hprodr : ((halveLoop r).1.prod * (doubleLoop (halveLoop r).2).1.prod) *
      (doubleLoop (halveLoop r).2).2 = r := by
    calc ((halveLoop r).1.prod * (doubleLoop (halveLoop r).2).1.prod) *
          (doubleLoop (halveLoop r).2).2
        = (halveLoop r).1.prod *
            ((doubleLoop (halveLoop r).2).1.prod * (doubleLoop (halveLoop r).2).2) := by
          ring
      _ = (halveLoop r).1.prod * (halveLoop r).2 := by rw [hp2]
      _ = r := hp1
  have hmem : ∀ x ∈ (halveLoop r).1 ++ (doubleLoop (halveLoop r).2).1,
      1 / 2 ≤ x ∧ x ≤ 2 := by
    intro x hx
    rcases List.mem_append.mp hx with hx2 | hx2
    · rw [hm1 x hx2]
      norm_num
    · rw [hm2 x hx2]
      norm_num
  have hchain : build_atempo_chain r =
      (if 1 / 10000 < |(doubleLoop (halveLoop r).2).2 - 1| then
        ((halveLoop r).1 ++ (doubleLoop (halveLoop r).2).1) ++
          [(doubleLoop (halveLoop r).2).2]
      else (halveLoop r).1 ++ (doubleLoop (halveLoop r).2).1) := by
    unfold build_atempo_chain
    rw [if_neg (not_le.mpr hr)]
  by_cases hif : 1 / 10000 < |(doubleLoop (halveLoop r).2).2 - 1|
  · rw [hchain, if_pos hif]
    have hprodeq : ((((halveLoop r).1 ++ (doubleLoop (halveLoop r).2).1) ++
        [(doubleLoop (halveLoop r).2).2]).prod) = r := by
      rw [List.prod_append, List.prod_append]
      simp only [List.prod_cons, List.prod_nil, mul_one]
      exact hprodr
    refine ⟨?_, ?_, ⟨1, by norm_num, by norm_num, by norm_num, by rw [hprodeq, mul_one]⟩, ?_⟩
    · intro x hx
      rcases List.mem_append.mp hx with hx2 | hx2
      · exact hmem x hx2
      · rcases List.mem_singleton.mp hx2 with rfl
        exact ⟨hr2half, hr2le⟩
    · rw [hprodeq]
      exact hr
    · rw [hprodeq]
      simp only [sub_self, abs_zero]
      positivity
  · rw [hchain, if_neg hif]
    have hresid := not_lt.mp hif
    have hprodeq : ((halveLoop r).1 ++ (doubleLoop (halveLoop r).2).1).prod =
        (halveLoop r).1.prod * (doubleLoop (halveLoop r).2).1.prod :=
      List.prod_append
    have hppos : 0 < ((halveLoop r).1 ++ (doubleLoop (halveLoop r).2).1).prod := by
      rw [hprodeq]
      exact mul_pos hprodpos1 hprodpos2
    refine ⟨hmem, hppos,
      ⟨(doubleLoop (halveLoop r).2).2, hr2half, hr2le, hresid, by rw [hprodeq]; exact hprodr⟩,
      ?_⟩
    have hsub : ((halveLoop r).1 ++ (doubleLoop (halveLoop r).2).1).prod - r =
        ((halveLoop r).1 ++ (doubleLoop (halveLoop r).2).1).prod *
          (1 - (doubleLoop (halveLoop r).2).2) := by
      rw [mul_sub, mul_one]
      rw [hprodeq, hprodr]
    rw [hsub, abs_mul, abs_of_pos hppos, abs_sub_comm]
    rw [mul_comm (1 / 10000 : ℚ)]
    exact mul_le_mul_of_nonneg_left hresid (le_of_lt hppos)

/-- C7 amended witness: for the ratio 5 the chain is `[2, 2, 5/4]`, the
product is exactly 5 and every factor lies in `[1/2, 2]`. -/
theorem build_atempo_chain_rel_error_witness :
    build_atempo_chain (5 : ℚ) = [2, 2, 5 / 4] ∧
    (build_atempo_chain (5 : ℚ)).prod = 5 ∧
    (∀ x ∈ build_atempo_chain (5 : ℚ), 1 / 2 ≤ x ∧ x ≤ 2) := by
  have hhalve : halveLoop (5 : ℚ) = ([2, 2], 5 / 4) := by
    rw [halveLoop, dif_pos (by norm_num)]
    rw [halveLoop, dif_pos (by norm_num)]
    rw [halveLoop, dif_neg (by norm_num)]
    norm_num
  have hchain : build_atempo_chain (5 : ℚ) = [2, 2, 5 / 4] := by
    unfold build_atempo_chain
    rw [if_neg (by norm_num), hhalve]
    dsimp only
    rw [doubleLoop, dif_neg (by norm_num)]
    dsimp only
    rw [if_pos (by rw [abs_of_nonneg (by norm_num)]; norm_num)]
    simp
  refine ⟨hchain, ?_, ?_⟩
  · rw [hchain]
    norm_num [List.prod_cons, List.prod_nil]
  · exact (build_atempo_chain_rel_error 5 (by norm_num)).1

end Momentum
